import Mathlib

/-!
A shallow embedding of the organyacat Organya music player, translated from
the Rust sources src/lib.rs, src/read_cursor.rs, src/song.rs, src/sound.rs
and src/player.rs, together with theorems settling the specification claims.

Modelling conventions:
* Machine integers (u8, u16, u32, usize, i8, i16, i32) are Nat or Int, with
  an explicit wrap (reduction mod 256, 65536 or 4294967296) exactly where
  the source relies on release mode wrap around; each such site is noted.
* Fallible operations return Option; none models a Rust panic (an out of
  bounds slice index or a failed unwrap).
* The f32 and f64 state is modelled over the exact rationals.  The single
  transcendental computation of the source, powf 10 (db / 2000) in
  Sound::set_volume and Sound::set_pan, has no exact rational embedding and
  is passed in as an arbitrary gain curve g, so every theorem below holds
  for every possible gain curve.
-/

namespace Organya

/-- Sentinel byte 0xFF for unused event properties (lib.rs, PROPERTY_UNUSED). -/
def PROPERTY_UNUSED : Nat := 255

/-- Wavetable period for each octave group (player.rs, SIZE_TABLE). -/
def SIZE_TABLE : List Nat := [256, 256, 128, 128, 64, 32, 16, 8]

/-- Tempered chromatic base frequencies (player.rs, FREQ_TABLE). -/
def FREQ_TABLE : List Nat := [262, 277, 294, 311, 330, 349, 370, 392, 415, 440, 466, 494]

/-- Pan position table (player.rs, PANNING_TABLE). -/
def PANNING_TABLE : List Int := [0, 43, 86, 129, 172, 215, 256, 297, 340, 383, 426, 469, 512]

/-- List update at an index, leaving the list unchanged when out of range.
Used to model in place mutation of one element of a Rust array. -/
def listUpd : List α → Nat → (α → α) → List α
  | [], _, _ => []
  | a :: l, 0, f => f a :: l
  | a :: l, n + 1, f => a :: listUpd l n f

/-- Event (song.rs): one sequencer event of a channel. -/
structure Event where
  position : Nat
  pitch : Nat
  length : Nat
  volume : Nat
  pan : Nat
  deriving DecidableEq

/-- Channel (song.rs): instrument data plus the event list. -/
structure Channel where
  instrument : Nat
  finetune : Nat
  pizzicato : Bool
  events : List Event
  deriving DecidableEq

/-- Song (song.rs): tempo, loop points and the 16 channels. -/
structure Song where
  tempo_ms : Nat
  repeat_start : Nat
  repeat_end : Nat
  channels : List Channel
  beats_per_measure : Nat
  steps_per_beat : Nat
  deriving DecidableEq

/-- A melody channel of the default Song (instrument ins, finetune 1000). -/
def defaultLoChannel (ins : Nat) : Channel :=
  { instrument := ins, finetune := 1000, pizzicato := false, events := [] }

/-- A percussion channel of the default Song. -/
def defaultHiChannel (ins : Nat) : Channel :=
  { instrument := ins, finetune := 1000, pizzicato := false, events := [] }

/-- Default Song (song.rs, impl Default for Song): melody instruments
0, 11, ..., 77, percussion instruments 0, 2, 5, 6, 4, 8, 0, 0. -/
def Song.default : Song :=
  { tempo_ms := 125, repeat_start := 0, repeat_end := 1600,
    channels :=
      [defaultLoChannel 0, defaultLoChannel 11, defaultLoChannel 22, defaultLoChannel 33,
       defaultLoChannel 44, defaultLoChannel 55, defaultLoChannel 66, defaultLoChannel 77,
       defaultHiChannel 0, defaultHiChannel 2, defaultHiChannel 5, defaultHiChannel 6,
       defaultHiChannel 4, defaultHiChannel 8, defaultHiChannel 0, defaultHiChannel 0],
    beats_per_measure := 1, steps_per_beat := 1 }

/-- ReadCursor::u8_at (read_cursor.rs): byte at an offset; none is the
panic of an out of bounds index. -/
def u8_at (l : List Nat) (off : Nat) : Option Nat := l.get? off

/-- Little endian u16 at an offset.  Models the sequential next_u16_le
reads of the header, expressed at the fixed offset the cursor has reached. -/
def u16_le_at (l : List Nat) (off : Nat) : Option Nat := do
  let a ← l.get? off
  let b ← l.get? (off + 1)
  pure (a + 256 * b)

/-- ReadCursor::u32_le_at (read_cursor.rs): little endian u32 at an offset;
none is the panic of a short slice. -/
def u32_le_at (l : List Nat) (off : Nat) : Option Nat := do
  let a ← l.get? off
  let b ← l.get? (off + 1)
  let c ← l.get? (off + 2)
  let d ← l.get? (off + 3)
  pure (a + 256 * b + 65536 * c + 16777216 * d)

/-- ReadCursor::next_u32_le (read_cursor.rs): consume four bytes as a
little endian u32. -/
def next_u32_le (l : List Nat) : Option (Nat × List Nat) := do
  let v ← u32_le_at l 0
  pure (v, l.drop 4)

/-- The ASCII bytes of the Org- magic. -/
def orgMagic : List Nat := [79, 114, 103, 45]

/-- Version decoding of Song::read: (d1 - 48) * 10 + (d2 - 48) in wrapping
u8 arithmetic (release mode semantics of the subtraction and the addition),
hence the explicit reductions mod 256. -/
def songVersion (data : List Nat) : Nat :=
  ((data.getD 4 0 + 208) % 256 * 10 + (data.getD 5 0 + 208) % 256) % 256

/-- Per channel header data read by the first loop of Song::read. -/
structure ChannelHdr where
  finetune : Nat
  instrument : Nat
  pizzicato : Bool
  event_count : Nat
  deriving DecidableEq

/-- The channel header loop of Song::read.  Channel i sits at offset
18 + 6 * i; the instrument is coerced to 0 when out of range, and the
pizzicato flag is honoured only for version greater than 1. -/
def readChannelHeaders (data : List Nat) (version : Nat) : Nat → Nat → Option (List ChannelHdr)
  | _, 0 => some []
  | i, k + 1 => do
    let finetune ← u16_le_at data (18 + i * 6)
    let instrument ← u8_at data (18 + i * 6 + 2)
    let piz ← u8_at data (18 + i * 6 + 3)
    let event_count ← u16_le_at data (18 + i * 6 + 4)
    let instrument := if i < 8 ∧ 100 ≤ instrument ∨ 8 ≤ i ∧ 42 ≤ instrument then 0 else instrument
    let rest ← readChannelHeaders data version (i + 1) k
    pure ({ finetune, instrument, pizzicato := 1 < version ∧ piz = 1, event_count } :: rest)

/-- One event of the event table loop of Song::read, with the load time
normalisation of pitch, length and pan. -/
def readEvent (rest : List Nat) (len j : Nat) : Option Event := do
  let position ← u32_le_at rest (j * 4)
  let pitch ← u8_at rest (len * 4 + j)
  let length ← u8_at rest (len * 5 + j)
  let volume ← u8_at rest (len * 6 + j)
  let pan ← u8_at rest (len * 7 + j)
  let pitch := if 96 ≤ pitch then PROPERTY_UNUSED else pitch
  let length := if length = 0 then 1 else length
  let pan := if 12 < pan ∧ pan ≠ PROPERTY_UNUSED then 6 else pan
  pure { position, pitch, length, volume, pan }

/-- The inner event loop of Song::read for one channel, reading events
j, j + 1, ... while k counts the events still to read. -/
def readEventsFrom (rest : List Nat) (len : Nat) : Nat → Nat → Option (List Event)
  | _, 0 => some []
  | j, k + 1 => do
    let e ← readEvent rest len j
    let es ← readEventsFrom rest len (j + 1) k
    pure (e :: es)

/-- All events of one channel. -/
def readChannelEvents (rest : List Nat) (len : Nat) : Option (List Event) :=
  readEventsFrom rest len 0 len

/-- The outer event table loop of Song::read: per channel, read its events
and then skip len * 8 bytes of the cursor (the skip panics when it runs
past the end of the slice, hence the explicit length test). -/
def readAllEvents : List Nat → List ChannelHdr → Option (List Channel)
  | _, [] => some []
  | rest, h :: hs => do
    let evs ← readChannelEvents rest h.event_count
    if h.event_count * 8 ≤ rest.length then
      let chs ← readAllEvents (rest.drop (h.event_count * 8)) hs
      pure (({ instrument := h.instrument, finetune := h.finetune,
               pizzicato := h.pizzicato, events := evs } : Channel) :: chs)
    else none

/-- Result of Song::read: ok, a Malformed error, or a panic. -/
inductive SongResult where
  | ok : Song → SongResult
  | malformed : SongResult
  | panicked : SongResult
  deriving DecidableEq

/-- Song::read (song.rs).  The source mutates self; since every field is
overwritten before Ok is returned, the result is a function of the input
bytes alone.  All Err returns of the source happen before any mutation. -/
def Song.read (data : List Nat) : SongResult :=
  if data.length < 114 then SongResult.malformed
  else if data.take 4 ≠ orgMagic then SongResult.malformed
  else
    let version := songVersion data
    if version < 1 ∨ 3 < version then SongResult.malformed
    else
      match u16_le_at data 6, u8_at data 8, u8_at data 9, u32_le_at data 10, u32_le_at data 14 with
      | some tempo_ms, some beats_per_measure, some steps_per_beat,
        some repeat_start, some repeat_end =>
        match readChannelHeaders data version 0 16 with
        | none => SongResult.panicked
        | some hdrs =>
          match readAllEvents (data.drop 114) hdrs with
          | none => SongResult.panicked
          | some channels =>
            SongResult.ok { tempo_ms, repeat_start, repeat_end, channels,
                            beats_per_measure, steps_per_beat }
      | _, _, _, _, _ => SongResult.panicked

/-- Interpolation (lib.rs): no interpolation, or four point Lagrange. -/
inductive Interpolation where
  | none : Interpolation
  | lagrange : Interpolation
  deriving DecidableEq

/-- Sound (sound.rs): one monophonic voice.  The f32 fields are modelled
as exact rationals; data holds i8 sample values as integers. -/
structure Sound where
  data : List Int
  samples : List ℚ
  position : Nat
  sub_position : ℚ
  frequency : Nat
  position_increment : ℚ
  ring : Int
  playing : Bool
  looping : Bool
  volume : ℚ
  pan_left : ℚ
  pan_right : ℚ
  volume_left : ℚ
  volume_right : ℚ
  target_volume_left : ℚ
  target_volume_right : ℚ
  volume_ticks : Nat
  total_samples : Nat
  silence_timer : Nat
  deriving DecidableEq

/-- Default Sound (derive(Default) in sound.rs): zeroes, empty data,
eight zero ring samples. -/
def defaultSound : Sound :=
  { data := [], samples := List.replicate 8 0, position := 0, sub_position := 0,
    frequency := 0, position_increment := 0, ring := 0, playing := false,
    looping := false, volume := 0, pan_left := 0, pan_right := 0,
    volume_left := 0, volume_right := 0, target_volume_left := 0,
    target_volume_right := 0, volume_ticks := 0, total_samples := 0,
    silence_timer := 0 }

/-- Sound::set_frequency (sound.rs). -/
def Sound.set_frequency (s : Sound) (frequency out_sample_rate : Nat) : Sound :=
  { s with frequency, position_increment := (frequency : ℚ) / (out_sample_rate : ℚ) }

/-- Sound::set_volume (sound.rs).  The linear gain powf 10 (db / 2000) is
the gain curve parameter g applied to the clamped decibel value. -/
def Sound.set_volume (g : Int → ℚ) (s : Sound) (volume_db : Int) (out_vol_ramp : Nat) : Sound :=
  let volume_db := max (-10000) (min 0 volume_db)
  let volume := g volume_db
  let target_volume_left := volume * s.pan_left
  let target_volume_right := volume * s.pan_right
  let s := { s with volume, target_volume_left, target_volume_right }
  if s.total_samples = 0 then
    { s with volume_left := s.target_volume_left, volume_right := s.target_volume_right,
             volume_ticks := 0 }
  else
    { s with volume_ticks := out_vol_ramp }

/-- Sound::set_pan (sound.rs).  As for set_volume, g is the gain curve
powf 10 (db / 2000) applied to the clamped decibel value. -/
def Sound.set_pan (g : Int → ℚ) (s : Sound) (pan_db : Int) (out_vol_ramp : Nat) : Sound :=
  let s :=
    if pan_db < 0 then
      let pan_db := if pan_db < -10000 then -10000 else pan_db
      { s with pan_left := 1, pan_right := g pan_db }
    else
      let pan_db := -pan_db
      let pan_db := if pan_db < -10000 then -10000 else pan_db
      { s with pan_left := g pan_db, pan_right := 1 }
  let s := { s with target_volume_left := s.volume * s.pan_left,
                    target_volume_right := s.volume * s.pan_right }
  if s.total_samples = 0 then
    { s with volume_left := s.target_volume_left, volume_right := s.target_volume_right,
             volume_ticks := 0 }
  else
    { s with volume_ticks := out_vol_ramp }

/-- Sound::play (sound.rs): restart position when not playing, and keep
the fractional phase exactly when a silence tail is still running. -/
def Sound.play (s : Sound) (looping : Bool) : Sound :=
  let s :=
    if s.playing = false then
      let s := { s with position := 0 }
      if s.silence_timer = 0 then { s with sub_position := 0 } else s
    else s
  { s with playing := true, looping }

/-- Sound::stop (sound.rs). -/
def Sound.stop (s : Sound) : Sound :=
  { s with playing := false, silence_timer := 8 }

/-- Sound::init (sound.rs): allocate a zeroed wavetable and reset the
whole voice state. -/
def Sound.init (g : Int → ℚ) (s : Sound) (sample_count sample_rate volume_ramp : Nat) : Sound :=
  let s := { s with data := List.replicate sample_count 0,
                    samples := List.replicate 8 0,
                    position := 0, sub_position := 0, silence_timer := 0,
                    total_samples := 0, frequency := 22050, volume := 1,
                    pan_left := 1, pan_right := 1 }
  let s := s.set_frequency 22050 sample_rate
  let s := Sound.set_volume g s 0 volume_ramp
  let s := Sound.set_pan g s 0 volume_ramp
  let s := { s with volume_left := s.target_volume_left,
                    volume_right := s.target_volume_right }
  { s with playing := false, looping := false, volume_ticks := 0, ring := 0 }

/-- Wrap an integer into i8 range, modelling release mode i8 wrap around. -/
def wrapI8 (x : Int) : Int := (x + 128) % 256 - 128

/-- Truncating remainder by 8 of an i8 value (wrapping_rem(8)): the sign
of the result follows the dividend, as for Rust integer remainder. -/
def i8rem8 (x : Int) : Int := if x < 0 then -((-x) % 8) else x % 8

/-- Truncation of a rational toward zero, as both the f32 to usize cast
(which in addition saturates below at zero, handled at the use site by
Int.toNat) and the f32 remainder by 1.0 behave. -/
def ratTrunc (q : ℚ) : Int := if q < 0 then -(Rat.floor (-q)) else Rat.floor q

/-- Read a ring sample slot: none models the panic of usize::try_from on a
negative index or an out of range samples index. -/
def sampleAt (samples : List ℚ) (idx : Int) : Option ℚ :=
  if 0 ≤ idx then samples.get? idx.toNat else Option.none

/-- Sound::interpolate_lagrange (sound.rs): the four taps around the ring
cursor and the cubic evaluated with the same coefficient structure as the
fused multiply adds of the source.  Each i8 operation is wrapped. -/
def Sound.interpolate_lagrange (s : Sound) : Option ℚ := do
  let margin := wrapI8 (s.ring - 2)
  let ia :=
    if 8 < margin then wrapI8 (wrapI8 (margin - 1) - 8)
    else if wrapI8 (margin - 1) < 0 then wrapI8 (wrapI8 (margin - 1) + 8)
    else wrapI8 (margin - 1)
  let sample_a ← sampleAt s.samples ia
  let ib :=
    if 8 ≤ margin then wrapI8 (margin - 8)
    else if margin < 0 then wrapI8 (margin + 8)
    else margin
  let sample_b ← sampleAt s.samples ib
  let ic :=
    if 8 ≤ wrapI8 (margin + 1) then wrapI8 (wrapI8 (margin + 1) - 8)
    else if wrapI8 (margin + 1) < 0 then wrapI8 (wrapI8 (margin + 1) + 8)
    else wrapI8 (margin + 1)
  let sample_c ← sampleAt s.samples ic
  let idd :=
    if 8 ≤ wrapI8 (margin + 2) then wrapI8 (wrapI8 (margin + 2) - 8)
    else if wrapI8 (margin + 2) < 0 then wrapI8 (wrapI8 (margin + 2) + 8)
    else wrapI8 (margin + 2)
  let sample_d ← sampleAt s.samples idd
  let c0 := sample_b
  let c1 := (1 : ℚ) / 6 * (-sample_d) +
    ((1 : ℚ) / 2 * (-sample_b) + ((1 : ℚ) / 3 * (-sample_a) + sample_c))
  let c2 := (1 : ℚ) / 2 * (sample_a + sample_c) + (-sample_b)
  let c3 := (1 : ℚ) / 6 * (sample_d - sample_a) + 1 / 2 * (sample_b - sample_c)
  pure (((c3 * s.sub_position + c2) * s.sub_position + c1) * s.sub_position + c0)

/-- Sound::interpolate (sound.rs). -/
def Sound.interpolate (s : Sound) : Interpolation → Option ℚ
  | Interpolation.none => sampleAt s.samples s.ring
  | Interpolation.lagrange => s.interpolate_lagrange

/-- The ring filling loop of Sound::write_sample: one iteration per crossed
source sample.  The state carried is (ring, samples, silence_timer); k
counts iterations still to run and i the loop variable of the source.
The none results model the panics of a negative ring index, an out of
range samples index, and a remainder by a zero data length. -/
def ringSteps (playing looping : Bool) (data : List Int) (last_position : Nat) :
    Nat → Nat → Int → List ℚ → Nat → Option (Int × List ℚ × Nat)
  | 0, _, ring, samples, st => some (ring, samples, st)
  | k + 1, i, ring, samples, st => do
    let ring := i8rem8 (wrapI8 (ring + 1))
    if 0 ≤ ring then
      if ring.toNat < samples.length then
        if playing then
          if looping then
            if data.length = 0 then Option.none
            else
              ringSteps playing looping data last_position k (i + 1) ring
                (samples.set ring.toNat
                  (((data.getD ((last_position + i) % data.length) 0 : Int) : ℚ) / 128)) st
          else
            let v : ℚ :=
              if data.length ≤ last_position + i then 0
              else ((data.getD (last_position + i) 0 : Int) : ℚ) / 128
            ringSteps playing looping data last_position k (i + 1) ring
              (samples.set ring.toNat v) st
        else
          ringSteps playing looping data last_position k (i + 1) ring
            (samples.set ring.toNat 0) (st - 1)
      else Option.none
    else Option.none

/-- Sound::write_sample (sound.rs): additive stereo accumulation and
playhead advance.  Returns the new voice state and the two accumulators,
or none for a panic. -/
def Sound.write_sample (interp : Interpolation) (s : Sound) (out_l out_r : ℚ) :
    Option (Sound × ℚ × ℚ) :=
  if s.playing = false ∧ s.silence_timer = 0 then some (s, out_l, out_r)
  else
    let s :=
      if 0 < s.volume_ticks then
        { s with
          volume_left := s.volume_left +
            (s.target_volume_left - s.volume_left) / (s.volume_ticks : ℚ),
          volume_right := s.volume_right +
            (s.target_volume_right - s.volume_right) / (s.volume_ticks : ℚ),
          volume_ticks := s.volume_ticks - 1 }
      else s
    match s.interpolate interp with
    | Option.none => Option.none
    | some sample_mixed =>
      let out_l := out_l + sample_mixed * s.volume_left
      let out_r := out_r + sample_mixed * s.volume_right
      let last_position := s.position
      let subsum := s.sub_position + s.position_increment
      let s := { s with position := s.position + (ratTrunc subsum).toNat,
                        sub_position := subsum - ((ratTrunc subsum : Int) : ℚ) }
      match
        (if last_position < s.position then
          ringSteps s.playing s.looping s.data last_position
            (s.position - last_position) 0 s.ring s.samples s.silence_timer
        else some (s.ring, s.samples, s.silence_timer)) with
      | Option.none => Option.none
      | some (ring, samples, silence_timer) =>
        let s := { s with ring, samples, silence_timer,
                          total_samples := (s.total_samples + 1) % 4294967296 }
        if s.playing then
          if s.data.length ≤ s.position then
            if s.looping then
              if s.data.length = 0 then Option.none
              else some ({ s with position := s.position % s.data.length }, out_l, out_r)
            else some ({ s with playing := false, silence_timer := 8 }, out_l, out_r)
          else some (s, out_l, out_r)
        else some ({ s with position := 0 }, out_l, out_r)

/-- SndPair (player.rs): the two alternating voices of one octave group. -/
abbrev SndPair := Sound × Sound

/-- Select a pair component by the alt bit.  The alt field is 0 or 1
throughout (initialised to 0 and only ever updated by xor with 1), so the
out of range index panic of the source cannot occur. -/
def pairGet (pr : SndPair) (alt : Nat) : Sound := if alt = 0 then pr.1 else pr.2

/-- Update the pair component selected by the alt bit. -/
def pairSet (pr : SndPair) (alt : Nat) (f : Sound → Sound) : SndPair :=
  if alt = 0 then (f pr.1, pr.2) else (pr.1, f pr.2)

/-- Melody (player.rs): one melody channel state. -/
structure Melody where
  pitch : Nat
  volume : Nat
  pan : Nat
  index : Nat
  ticks : Nat
  alt : Nat
  muted : Bool
  snd_pairs : List SndPair
  deriving DecidableEq

/-- Melody::pitch_alt_sound as a mutation: update the voice of octave
group pitch / 12 selected by alt.  After load the pitch is below 96, so
the group index is below 8 and the source index panic cannot occur. -/
def pitchAltUpdate (m : Melody) (f : Sound → Sound) : Melody :=
  { m with snd_pairs := listUpd m.snd_pairs (m.pitch / 12) (fun pr => pairSet pr m.alt f) }

/-- Read access to one melody voice, for theorem statements. -/
def melodySlot (m : Melody) (grp alt : Nat) : Option Sound :=
  (m.snd_pairs.get? grp).map (fun pr => pairGet pr alt)

/-- Percussion (player.rs): one percussion channel state. -/
structure Percussion where
  pitch : Nat
  volume : Nat
  pan : Nat
  index : Nat
  muted : Bool
  sound : Sound
  deriving DecidableEq

/-- Player (player.rs).  The fixed size arrays are lists (8 melodies,
8 percussions, 25600 melody samples, 42 percussion slots). -/
structure Player where
  song : Song
  position : Nat
  last_position : Nat
  samples_to_next_tick : ℚ
  volume_ramp : Nat
  melodies : List Melody
  percussions : List Percussion
  volume : ℚ
  sample_rate : Nat
  melody_wave_data : List Int
  percussion_wave_data : List (List Int)
  deriving DecidableEq

/-- Default Melody after the constructor loop of Player::default. -/
def defaultMelody : Melody :=
  { pitch := PROPERTY_UNUSED, volume := 200, pan := 6, index := 0, ticks := 0,
    alt := 0, muted := false, snd_pairs := List.replicate 8 (defaultSound, defaultSound) }

/-- Default Percussion after the constructor loop of Player::default. -/
def defaultPercussion : Percussion :=
  { pitch := PROPERTY_UNUSED, volume := 200, pan := 6, index := 0, muted := false,
    sound := defaultSound }

/-- Player::default (player.rs): sample rate 44100, hence volume ramp
44100 / 250 = 176, master volume 1, zeroed wave data. -/
def Player.default : Player :=
  { song := Song.default, position := 0, last_position := 0,
    samples_to_next_tick := 0, volume_ramp := 44100 / 250,
    melodies := List.replicate 8 defaultMelody,
    percussions := List.replicate 8 defaultPercussion,
    volume := 1, sample_rate := 44100,
    melody_wave_data := List.replicate 25600 0,
    percussion_wave_data := List.replicate 42 [] }

/-- The decibel value of the set_volume calls of both tick functions:
(volume * 100 / 0x7f - 0xff) * 8 in i16 arithmetic, which cannot overflow
for volume up to 254, so plain Int arithmetic is exact. -/
def volumeDb (volume : Nat) : Int := ((volume : Int) * 100 / 127 - 255) * 8

/-- The decibel value of the set_pan calls of both tick functions. -/
def panDb (tbl : Int) : Int := (tbl - 256) * 10

/-- The melody voice frequency base SIZE_TABLE[j] * FREQ_TABLE[k] * 2^j / 8
of tick_melodies.  The source computes it in i32; every operand is
nonnegative and the largest product is 505856, far below 2^31, so the
truncating i32 division coincides with this Nat division. -/
def sizeFreqBase (j k : Nat) : Nat :=
  SIZE_TABLE.getD j 0 * FREQ_TABLE.getD k 0 * 2 ^ j / 8

/-- The full snd_freq value of tick_melodies: base plus finetune - 1000. -/
def sndFreqVal (pitch finetune j : Nat) : Int :=
  (sizeFreqBase j (pitch % 12) : Int) + ((finetune : Int) - 1000)

/-- One set_frequency call of the pair loop of tick_melodies.  The
u16::try_from(snd_freq).unwrap() of the source panics outside u16 range,
modelled by none. -/
def setPairFreq (sample_rate pitch finetune j : Nat) (s : Sound) : Option Sound :=
  let snd_freq := sndFreqVal pitch finetune j
  if 0 ≤ snd_freq ∧ snd_freq < 65536 then
    some (s.set_frequency snd_freq.toNat sample_rate)
  else Option.none

/-- The pair loop of tick_melodies: set the frequency of both voices of
every octave group, j being the running group index. -/
def setPairsFreq (sample_rate pitch finetune : Nat) : Nat → List SndPair → Option (List SndPair)
  | _, [] => some []
  | j, pr :: rest => do
    let a ← setPairFreq sample_rate pitch finetune j pr.1
    let b ← setPairFreq sample_rate pitch finetune j pr.2
    let rest2 ← setPairsFreq sample_rate pitch finetune (j + 1) rest
    pure ((a, b) :: rest2)

/-- The per channel body of Player::tick_melodies (player.rs). -/
def tick_melody (g : Int → ℚ) (position sample_rate volume_ramp : Nat)
    (m : Melody) (ch : Channel) : Option Melody := do
  let m ←
    match ch.events.get? m.index with
    | Option.none => pure m
    | some event =>
      if m.muted then pure m
      else if position = event.position then do
        let m ←
          if event.pitch ≠ PROPERTY_UNUSED then do
            let m :=
              if m.pitch ≠ PROPERTY_UNUSED then
                let m :=
                  if ch.pizzicato = false then pitchAltUpdate m (fun s => s.play false)
                  else m
                { m with alt := m.alt ^^^ 1 }
              else m
            let m := { m with pitch := event.pitch, ticks := event.length }
            let pairs ← setPairsFreq sample_rate m.pitch ch.finetune 0 m.snd_pairs
            let m := { m with snd_pairs := pairs }
            pure (pitchAltUpdate m (fun s => s.play (!ch.pizzicato)))
          else pure m
        let m ←
          if event.volume ≠ PROPERTY_UNUSED then
            let m := { m with volume := event.volume }
            if m.pitch ≠ PROPERTY_UNUSED then
              pure (pitchAltUpdate m
                (fun s => Sound.set_volume g s (volumeDb m.volume) volume_ramp))
            else pure m
          else pure m
        let m ←
          if event.pan ≠ PROPERTY_UNUSED then do
            let m := { m with pan := event.pan }
            if m.pitch ≠ PROPERTY_UNUSED then do
              let tbl ← PANNING_TABLE.get? m.pan
              pure (pitchAltUpdate m
                (fun s => Sound.set_pan g s (panDb tbl) volume_ramp))
            else pure m
          else pure m
        pure { m with index := m.index + 1 }
      else pure m
  if m.ticks = 0 then
    if m.pitch ≠ PROPERTY_UNUSED ∧ ch.pizzicato = false then
      pure { pitchAltUpdate m (fun s => s.play false) with pitch := PROPERTY_UNUSED }
    else pure m
  else pure { m with ticks := m.ticks - 1 }

/-- Player::tick_melodies: the melodies zipped with the first channels
(zip truncates at the shorter list, as the source iterator does). -/
def tick_melodies (g : Int → ℚ) (position sample_rate volume_ramp : Nat) :
    List Melody → List Channel → Option (List Melody)
  | [], _ => some []
  | ms, [] => some ms
  | m :: ms, ch :: chs => do
    let m2 ← tick_melody g position sample_rate volume_ramp m ch
    let ms2 ← tick_melodies g position sample_rate volume_ramp ms chs
    pure (m2 :: ms2)

/-- The per channel body of Player::tick_percussions (player.rs).  The
u16 product pitch * 800 + 100 wraps mod 65536 in release mode, hence the
explicit reduction. -/
def tick_percussion (g : Int → ℚ) (position sample_rate volume_ramp : Nat)
    (pc : Percussion) (ch : Channel) : Option Percussion := do
  if pc.muted then pure pc
  else
    match ch.events.get? pc.index with
    | Option.none => pure pc
    | some event =>
      if position ≠ event.position then pure pc
      else do
        let pc ←
          if event.pitch ≠ PROPERTY_UNUSED then
            let pc := { pc with sound := pc.sound.stop }
            let pc := { pc with pitch := event.pitch }
            let pc := { pc with sound :=
              pc.sound.set_frequency ((pc.pitch * 800 + 100) % 65536) sample_rate }
            pure { pc with sound := pc.sound.play false }
          else pure pc
        let pc ←
          if event.volume ≠ PROPERTY_UNUSED then
            let pc := { pc with volume := event.volume }
            pure { pc with sound :=
              Sound.set_volume g pc.sound (volumeDb pc.volume) volume_ramp }
          else pure pc
        let pc ←
          if event.pan ≠ PROPERTY_UNUSED then do
            let pc := { pc with pan := event.pan }
            let tbl ← PANNING_TABLE.get? pc.pan
            pure { pc with sound := Sound.set_pan g pc.sound (panDb tbl) volume_ramp }
          else pure pc
        pure { pc with index := pc.index + 1 }

/-- Player::tick_percussions: the percussions zipped with the channels
from index 8 on. -/
def tick_percussions (g : Int → ℚ) (position sample_rate volume_ramp : Nat) :
    List Percussion → List Channel → Option (List Percussion)
  | [], _ => some []
  | ps, [] => some ps
  | p :: ps, ch :: chs => do
    let p2 ← tick_percussion g position sample_rate volume_ramp p ch
    let ps2 ← tick_percussions g position sample_rate volume_ramp ps chs
    pure (p2 :: ps2)

/-- The index scan of Player::seek for one channel: index starts at 0, and
the first event with position at least pos sets it; when no event matches,
the loop leaves the initial 0. -/
def seekIndexFrom (pos : Nat) : Nat → List Event → Nat
  | _, [] => 0
  | j, e :: rest => if pos ≤ e.position then j else seekIndexFrom pos (j + 1) rest

/-- The event index Player::seek assigns for one channel. -/
def seekIndex (pos : Nat) (events : List Event) : Nat := seekIndexFrom pos 0 events

/-- The melody loop of Player::seek, melodies zipped with channels 0..8.
The source indexes channels by the melody position, which always exists
for the fixed 16 channel array. -/
def seekMelodies (pos : Nat) : List Melody → List Channel → List Melody
  | [], _ => []
  | ms, [] => ms
  | m :: ms, ch :: chs =>
    { m with index := seekIndex pos ch.events } :: seekMelodies pos ms chs

/-- The percussion loop of Player::seek, zipped with channels 8..16. -/
def seekPercussions (pos : Nat) : List Percussion → List Channel → List Percussion
  | [], _ => []
  | ps, [] => ps
  | p :: ps, ch :: chs =>
    { p with index := seekIndex pos ch.events } :: seekPercussions pos ps chs

/-- Player::seek (player.rs). -/
def Player.seek (p : Player) (pos : Nat) : Player :=
  { p with last_position := pos, position := pos,
           melodies := seekMelodies pos p.melodies (p.song.channels.take 8),
           percussions := seekPercussions pos p.percussions (p.song.channels.drop 8) }

/-- The melody wavetable fill loop of Player::load_instruments: k samples,
stepping the wave index by step and wrapping it to a byte.  The none
result models the panic of an out of range melody_wave_data index. -/
def melodyWaveFill (mwd : List Int) (base step : Nat) : Nat → Nat → Option (List Int)
  | _, 0 => some []
  | wave_index, k + 1 => do
    let sample ← mwd.get? (base + wave_index)
    let rest ← melodyWaveFill mwd base step ((wave_index + step) &&& 255) k
    pure (sample :: rest)

/-- The pair loop of Player::load_instruments for one melody channel:
init both voices of group j with the (possibly pizzicato scaled) sample
count, then fill their data from the instrument wavetable.  The source
writes the same sample into both data arrays element by element; since
every element is written, this equals replacing both arrays by the filled
list. -/
def loadMelodyPairs (g : Int → ℚ) (mwd : List Int) (sample_rate volume_ramp : Nat)
    (ch : Channel) : Nat → List SndPair → Option (List SndPair)
  | _, [] => some []
  | j, pr :: rest => do
    let sample_count := SIZE_TABLE.getD j 0
    let sample_count := if ch.pizzicato then sample_count * (4 + j * 4) else sample_count
    let s0 := Sound.init g pr.1 sample_count sample_rate volume_ramp
    let s1 := Sound.init g pr.2 sample_count sample_rate volume_ramp
    let filled ← melodyWaveFill mwd (ch.instrument * 256) (256 / SIZE_TABLE.getD j 0) 0 sample_count
    let rest2 ← loadMelodyPairs g mwd sample_rate volume_ramp ch (j + 1) rest
    pure (({ s0 with data := filled }, { s1 with data := filled }) :: rest2)

/-- The melody loop of Player::load_instruments. -/
def loadMelodies (g : Int → ℚ) (mwd : List Int) (sample_rate volume_ramp : Nat) :
    List Melody → List Channel → Option (List Melody)
  | [], _ => some []
  | ms, [] => some ms
  | m :: ms, ch :: chs => do
    let pairs ← loadMelodyPairs g mwd sample_rate volume_ramp ch 0 m.snd_pairs
    let rest ← loadMelodies g mwd sample_rate volume_ramp ms chs
    pure ({ m with snd_pairs := pairs } :: rest)

/-- The percussion loop of Player::load_instruments: init the voice with
the percussion sample length and copy the samples shifted by -128 with
wrapping i8 addition.  The none result models the panic of an out of
range percussion_wave_data index. -/
def loadPercussions (g : Int → ℚ) (pwd : List (List Int)) (sample_rate volume_ramp : Nat) :
    List Percussion → List Channel → Option (List Percussion)
  | [], _ => some []
  | ps, [] => some ps
  | p :: ps, ch :: chs => do
    let percussion_data ← pwd.get? ch.instrument
    let s := Sound.init g p.sound percussion_data.length sample_rate volume_ramp
    let s := { s with data := percussion_data.map (fun b => wrapI8 (b - 128)) }
    let rest ← loadPercussions g pwd sample_rate volume_ramp ps chs
    pure ({ p with sound := s } :: rest)

/-- Player::load_instruments (player.rs). -/
def load_instruments (g : Int → ℚ) (p : Player) : Option Player := do
  let melodies ← loadMelodies g p.melody_wave_data p.sample_rate p.volume_ramp
    p.melodies (p.song.channels.take 8)
  let percussions ← loadPercussions g p.percussion_wave_data p.sample_rate p.volume_ramp
    p.percussions (p.song.channels.drop 8)
  pure { p with melodies, percussions }

/-- Signed reinterpretation of an unsigned byte, as the bytemuck cast from
u8 to i8 behaves. -/
def asI8 (b : Nat) : Int := if b < 128 then (b : Int) else (b : Int) - 256

/-- Result of the percussion record loop of read_soundbank.  The ok and
malformed results carry the percussion slots as left by the loop (on a
Malformed error the slots already processed keep their new values). -/
inductive PercResult where
  | ok : List (List Int) → PercResult
  | malformed : List (List Int) → PercResult
  | panicked : PercResult
  deriving DecidableEq

/-- The 42 record loop of Player::read_soundbank: per slot, read a u32
length (a short read is the Malformed early return of the source), and
for a nonzero length take that many bytes; next_n_bytes panics when the
length exceeds the remaining bytes, modelled by panicked. -/
def readPercs : List Nat → List (List Int) → PercResult
  | _, [] => PercResult.ok []
  | rest, w :: ws =>
    match next_u32_le rest with
    | Option.none => PercResult.malformed (w :: ws)
    | some (len, rest2) =>
      if len = 0 then
        match readPercs rest2 ws with
        | PercResult.ok ws2 => PercResult.ok (w :: ws2)
        | PercResult.malformed ws2 => PercResult.malformed (w :: ws2)
        | PercResult.panicked => PercResult.panicked
      else
        if len ≤ rest2.length then
          match readPercs (rest2.drop len) ws with
          | PercResult.ok ws2 => PercResult.ok (((rest2.take len).map asI8) :: ws2)
          | PercResult.malformed ws2 => PercResult.malformed (((rest2.take len).map asI8) :: ws2)
          | PercResult.panicked => PercResult.panicked
        else PercResult.panicked

/-- Result of Player::read_soundbank: ok and err carry the player state
after the call (the source takes &mut self, so an Err return still leaves
any mutations already performed in place). -/
inductive BankResult where
  | ok : Player → BankResult
  | err : Player → BankResult
  | panicked : BankResult
  deriving DecidableEq

/-- Player::read_soundbank (player.rs): length precheck, then the melody
wave block is copied, then the percussion record loop runs. -/
def read_soundbank (p : Player) (data : List Nat) : BankResult :=
  if data.length < 25600 + 42 * 4 then BankResult.err p
  else
    let melody_wave_data := (data.take 25600).map asI8
    match readPercs (data.drop 25600) p.percussion_wave_data with
    | PercResult.ok ws =>
      BankResult.ok { p with melody_wave_data, percussion_wave_data := ws }
    | PercResult.malformed ws =>
      BankResult.err { p with melody_wave_data, percussion_wave_data := ws }
    | PercResult.panicked => BankResult.panicked

/-- Result of Player::read_song. -/
inductive LoadResult where
  | ok : Player → LoadResult
  | err : Player → LoadResult
  | panicked : LoadResult
  deriving DecidableEq

/-- Player::read_song (player.rs): Song::read, then seek 0, then
load_instruments.  Every Err return of Song::read happens before it
mutates the song, so the err case carries the unchanged player. -/
def read_song (g : Int → ℚ) (p : Player) (data : List Nat) : LoadResult :=
  match Song.read data with
  | SongResult.malformed => LoadResult.err p
  | SongResult.panicked => LoadResult.panicked
  | SongResult.ok song =>
    let p := { p with song }
    let p := p.seek 0
    match load_instruments g p with
    | some p2 => LoadResult.ok p2
    | Option.none => LoadResult.panicked

/-- One abstract operation on a Sound voice, for invariant statements over
arbitrary call sequences. -/
inductive SoundOp where
  | initOp (sample_count sample_rate volume_ramp : Nat)
  | setFrequencyOp (frequency sample_rate : Nat)
  | setVolumeOp (volume_db : Int) (out_vol_ramp : Nat)
  | setPanOp (pan_db : Int) (out_vol_ramp : Nat)
  | playOp (looping : Bool)
  | stopOp
  | writeOp (interp : Interpolation) (out_l out_r : ℚ)

/-- Apply one operation to a voice. -/
def applyOp (g : Int → ℚ) (s : Sound) : SoundOp → Option Sound
  | SoundOp.initOp c sr vr => some (Sound.init g s c sr vr)
  | SoundOp.setFrequencyOp f sr => some (s.set_frequency f sr)
  | SoundOp.setVolumeOp db r => some (Sound.set_volume g s db r)
  | SoundOp.setPanOp db r => some (Sound.set_pan g s db r)
  | SoundOp.playOp l => some (s.play l)
  | SoundOp.stopOp => some s.stop
  | SoundOp.writeOp i l r => (Sound.write_sample i s l r).map (fun t => t.1)

/-- Run a sequence of operations on a voice. -/
def runOps (g : Int → ℚ) : Sound → List SoundOp → Option Sound
  | s, [] => some s
  | s, op :: ops => (applyOp g s op).bind (fun s2 => runOps g s2 ops)


/-! ## Helper lemmas used by the claim theorems -/

theorem listUpd_length : ∀ (l : List α) (i : Nat) (f : α → α), (listUpd l i f).length = l.length := by
  intro l
  induction l with
  | nil => intro i f; rfl
  | cons a rest ih =>
    intro i f
    cases i with
    | zero => rfl
    | succ ii => simpa [listUpd] using ih ii f

theorem listUpd_get_self : ∀ (l : List α) (i : Nat) (f : α → α), i < l.length →
    (listUpd l i f).get? i = (l.get? i).map f := by
  intro l
  induction l with
  | nil => intro i f hi; simp at hi
  | cons a rest ih =>
    intro i f hi
    cases i with
    | zero => rfl
    | succ ii => simpa [listUpd] using ih ii f (by simpa using hi)

theorem listUpd_get_other : ∀ (l : List α) (i j : Nat) (f : α → α), i ≠ j →
    (listUpd l i f).get? j = l.get? j := by
  intro l
  induction l with
  | nil => intro i j f hij; rfl
  | cons a rest ih =>
    intro i j f hij
    cases i with
    | zero =>
      cases j with
      | zero => exact absurd rfl hij
      | succ jj => rfl
    | succ ii =>
      cases j with
      | zero => rfl
      | succ jj => simpa [listUpd] using ih ii jj f (by omega)

theorem pairGet_pairSet_same (pr : SndPair) (a : Nat) (f : Sound → Sound) :
    pairGet (pairSet pr a f) a = f (pairGet pr a) := by
  unfold pairGet pairSet
  split <;> rename_i h <;> simp [h]

theorem pairGet_pairSet_other (pr : SndPair) (a b : Nat) (f : Sound → Sound)
    (ha : a = 0 ∨ a = 1) (hb : b = 0 ∨ b = 1) (hab : a ≠ b) :
    pairGet (pairSet pr a f) b = pairGet pr b := by
  rcases ha with ha | ha <;> rcases hb with hb | hb <;> subst ha <;> subst hb <;>
    first
    | exact absurd rfl hab
    | simp [pairGet, pairSet]

/-- The per pair frequency update of the pair loop of tick_melodies, once
every u16 conversion has been shown to be in range. -/
def pairFreqMap (sample_rate pitch finetune j : Nat) (pr : SndPair) : SndPair :=
  (pr.1.set_frequency (sndFreqVal pitch finetune j).toNat sample_rate,
   pr.2.set_frequency (sndFreqVal pitch finetune j).toNat sample_rate)

/-- The list the pair loop produces when every conversion is in range. -/
def pairsFreqMapped (sample_rate pitch finetune : Nat) : Nat → List SndPair → List SndPair
  | _, [] => []
  | j, pr :: rest =>
    pairFreqMap sample_rate pitch finetune j pr ::
      pairsFreqMapped sample_rate pitch finetune (j + 1) rest

theorem sizeFreqBase_bounds : ∀ j < 8, ∀ k < 12,
    8384 ≤ sizeFreqBase j k ∧ sizeFreqBase j k ≤ 63232 := by decide

theorem setPairFreq_ok (sr pitch ft j : Nat) (hj : j < 8) (hft : ft ≤ 3303) (s : Sound) :
    setPairFreq sr pitch ft j s =
      some (s.set_frequency (sndFreqVal pitch ft j).toNat sr) := by
  have hb := sizeFreqBase_bounds j hj (pitch % 12) (Nat.mod_lt pitch (by norm_num))
  have hc : 0 ≤ sndFreqVal pitch ft j ∧ sndFreqVal pitch ft j < 65536 := by
    unfold sndFreqVal
    omega
  unfold setPairFreq
  dsimp only
  rw [if_pos hc]

theorem setPairsFreq_ok (sr pitch ft : Nat) (hft : ft ≤ 3303) :
    ∀ (pairs : List SndPair) (j : Nat), j + pairs.length ≤ 8 →
    setPairsFreq sr pitch ft j pairs = some (pairsFreqMapped sr pitch ft j pairs) := by
  intro pairs
  induction pairs with
  | nil => intro j hj; rfl
  | cons pr rest ih =>
    intro j hj
    unfold setPairsFreq
    rw [setPairFreq_ok sr pitch ft j (by simp at hj; omega) hft pr.1,
        setPairFreq_ok sr pitch ft j (by simp at hj; omega) hft pr.2,
        ih (j + 1) (by simp at hj; omega)]
    rfl

theorem pairsFreqMapped_get? (sr pitch ft : Nat) :
    ∀ (pairs : List SndPair) (j i : Nat),
      (pairsFreqMapped sr pitch ft j pairs).get? i =
        (pairs.get? i).map (pairFreqMap sr pitch ft (j + i)) := by
  intro pairs
  induction pairs with
  | nil => intro j i; simp [pairsFreqMapped]
  | cons pr rest ih =>
    intro j i
    cases i with
    | zero => simp [pairsFreqMapped]
    | succ ii =>
      simp only [pairsFreqMapped, List.get?_cons_succ]
      rw [ih (j + 1) ii, show j + 1 + ii = j + (ii + 1) from by omega]

theorem pairsFreqMapped_length (sr pitch ft : Nat) :
    ∀ (ps : List SndPair) (j : Nat), (pairsFreqMapped sr pitch ft j ps).length = ps.length := by
  intro ps
  induction ps with
  | nil => intro j; rfl
  | cons pr rest ih => intro j; simpa [pairsFreqMapped] using ih (j + 1)

theorem pairGet_pairFreqMap (sr pitch ft j : Nat) (pr : SndPair) (a : Nat) :
    pairGet (pairFreqMap sr pitch ft j pr) a =
      (pairGet pr a).set_frequency (sndFreqVal pitch ft j).toNat sr := by
  unfold pairGet pairFreqMap
  split <;> rfl

theorem play_flags (s : Sound) (l : Bool) :
    (s.play l).playing = true ∧ (s.play l).looping = l ∧
      (s.play l).silence_timer = s.silence_timer := by
  unfold Sound.play
  dsimp only
  split
  · split <;> exact ⟨rfl, rfl, rfl⟩
  · exact ⟨rfl, rfl, rfl⟩

theorem set_frequency_flags (s : Sound) (f sr : Nat) :
    (s.set_frequency f sr).playing = s.playing ∧
      (s.set_frequency f sr).looping = s.looping ∧
      (s.set_frequency f sr).silence_timer = s.silence_timer :=
  ⟨rfl, rfl, rfl⟩

theorem set_volume_flags (g : Int → ℚ) (s : Sound) (db : Int) (r : Nat) :
    (Sound.set_volume g s db r).playing = s.playing ∧
      (Sound.set_volume g s db r).looping = s.looping ∧
      (Sound.set_volume g s db r).silence_timer = s.silence_timer := by
  unfold Sound.set_volume
  dsimp only
  split <;> exact ⟨rfl, rfl, rfl⟩

theorem set_pan_flags (g : Int → ℚ) (s : Sound) (db : Int) (r : Nat) :
    (Sound.set_pan g s db r).playing = s.playing ∧
      (Sound.set_pan g s db r).looping = s.looping ∧
      (Sound.set_pan g s db r).silence_timer = s.silence_timer := by
  unfold Sound.set_pan
  dsimp only
  split <;> (dsimp only; split <;> exact ⟨rfl, rfl, rfl⟩)

theorem set_volume_frequency (g : Int → ℚ) (s : Sound) (db : Int) (r : Nat) :
    (Sound.set_volume g s db r).frequency = s.frequency := by
  unfold Sound.set_volume
  dsimp only
  split <;> rfl

theorem set_pan_frequency (g : Int → ℚ) (s : Sound) (db : Int) (r : Nat) :
    (Sound.set_pan g s db r).frequency = s.frequency := by
  unfold Sound.set_pan
  dsimp only
  split <;> (dsimp only; split <;> rfl)

theorem play_frequency (s : Sound) (l : Bool) : (s.play l).frequency = s.frequency := by
  unfold Sound.play
  dsimp only
  split
  · split <;> rfl
  · rfl

theorem panTable_isSome : ∀ k < 13, (PANNING_TABLE.get? k).isSome = true := by decide

theorem slot_other_layer (ps : List SndPair) (gE gO aE aO : Nat) (f : Sound → Sound)
    (hgOlen : gO < ps.length) (haO : aO = 0 ∨ aO = 1) (haE : aE = 0 ∨ aE = 1) (hne : aE ≠ aO) :
    ((listUpd ps gE (fun pr => pairSet pr aE f)).get? gO).map (fun pr => pairGet pr aO) =
      (ps.get? gO).map (fun pr => pairGet pr aO) := by
  by_cases hg : gE = gO
  · subst hg
    rw [listUpd_get_self ps gE _ hgOlen]
    cases hp : ps.get? gE with
    | none => rfl
    | some pr => simp [pairGet_pairSet_other pr aE aO f haE haO hne]
  · rw [listUpd_get_other ps gE gO _ hg]

theorem slot_same_layer (ps : List SndPair) (gE aE : Nat) (f : Sound → Sound)
    (hgE : gE < ps.length) :
    ((listUpd ps gE (fun pr => pairSet pr aE f)).get? gE).map (fun pr => pairGet pr aE) =
      ((ps.get? gE).map (fun pr => pairGet pr aE)).map f := by
  rw [listUpd_get_self ps gE _ hgE]
  cases hp : ps.get? gE with
  | none => rfl
  | some pr => simp [pairGet_pairSet_same pr aE f]

theorem slot_freq_layer (sr pitch ft : Nat) (ps : List SndPair) (i a : Nat) :
    ((pairsFreqMapped sr pitch ft 0 ps).get? i).map (fun pr => pairGet pr a) =
      ((ps.get? i).map (fun pr => pairGet pr a)).map
        (fun s => s.set_frequency (sndFreqVal pitch ft i).toNat sr) := by
  rw [pairsFreqMapped_get?]
  cases hp : ps.get? i with
  | none => rfl
  | some pr => simp [pairGet_pairFreqMap]

theorem seekIndexFrom_found (pos : Nat) :
    ∀ (l : List Event) (j0 j : Nat) (ev : Event),
      l.get? j = some ev → pos ≤ ev.position →
      (∀ k ek, k < j → l.get? k = some ek → ek.position < pos) →
      seekIndexFrom pos j0 l = j0 + j := by
  intro l
  induction l with
  | nil => intro j0 j ev hj; simp at hj
  | cons e rest ih =>
    intro j0 j ev hj hle hbefore
    cases j with
    | zero =>
      simp at hj
      unfold seekIndexFrom
      rw [if_pos (hj ▸ hle)]
      omega
    | succ jj =>
      have he : e.position < pos := hbefore 0 e (Nat.succ_pos jj) (by simp)
      unfold seekIndexFrom
      rw [if_neg (by omega)]
      have h2 := ih (j0 + 1) jj ev (by simpa using hj)
        hle (fun k ek hk hget => hbefore (k + 1) ek (by omega) (by simpa using hget))
      omega

theorem seekIndexFrom_notfound (pos : Nat) :
    ∀ (l : List Event) (j0 : Nat), (∀ e ∈ l, e.position < pos) →
      seekIndexFrom pos j0 l = 0 := by
  intro l
  induction l with
  | nil => intro j0 h; rfl
  | cons e rest ih =>
    intro j0 h
    unfold seekIndexFrom
    rw [if_neg (by have := h e (by simp); omega)]
    exact ih (j0 + 1) (fun x hx => h x (by simp [hx]))

theorem seekMelodies_get? (pos : Nat) :
    ∀ (ms : List Melody) (chs : List Channel) (i : Nat) (m : Melody) (ch : Channel),
      ms.get? i = some m → chs.get? i = some ch →
      (seekMelodies pos ms chs).get? i = some { m with index := seekIndex pos ch.events } := by
  intro ms
  induction ms with
  | nil => intro chs i m ch hm; simp at hm
  | cons m0 rest ih =>
    intro chs i m ch hm hch
    cases chs with
    | nil => simp at hch
    | cons ch0 chs2 =>
      cases i with
      | zero =>
        simp at hm hch
        subst hm; subst hch
        rfl
      | succ ii =>
        simp only [List.get?_cons_succ] at hm hch
        unfold seekMelodies
        simpa using ih chs2 ii m ch hm hch

theorem seekPercussions_get? (pos : Nat) :
    ∀ (ps : List Percussion) (chs : List Channel) (i : Nat) (pc : Percussion) (ch : Channel),
      ps.get? i = some pc → chs.get? i = some ch →
      (seekPercussions pos ps chs).get? i = some { pc with index := seekIndex pos ch.events } := by
  intro ps
  induction ps with
  | nil => intro chs i pc ch hm; simp at hm
  | cons p0 rest ih =>
    intro chs i pc ch hm hch
    cases chs with
    | nil => simp at hch
    | cons ch0 chs2 =>
      cases i with
      | zero =>
        simp at hm hch
        subst hm; subst hch
        rfl
      | succ ii =>
        simp only [List.get?_cons_succ] at hm hch
        unfold seekPercussions
        simpa using ih chs2 ii pc ch hm hch

theorem ratFloor_eq (q : ℚ) : Rat.floor q = ⌊q⌋ := rfl

theorem sub_ratTrunc_bounds (q : ℚ) (h : 0 ≤ q) :
    0 ≤ q - ((ratTrunc q : Int) : ℚ) ∧ q - ((ratTrunc q : Int) : ℚ) < 1 := by
  unfold ratTrunc
  rw [if_neg (not_lt.mpr h), ratFloor_eq]
  constructor
  · have := Int.floor_le q
    linarith
  · have := Int.lt_floor_add_one q
    linarith

/-- The inductive invariant behind the sub position claim: the fractional
phase is in the unit interval and the increment is nonnegative. -/
def SubInv (s : Sound) : Prop :=
  0 ≤ s.sub_position ∧ s.sub_position < 1 ∧ 0 ≤ s.position_increment

theorem write_sample_SubInv (i : Interpolation) (s : Sound) (l r : ℚ)
    (t : Sound × ℚ × ℚ) (hinv : SubInv s) (h : Sound.write_sample i s l r = some t) :
    SubInv t.1 := by
  obtain ⟨h0, h1, h2⟩ := hinv
  unfold Sound.write_sample at h
  by_cases hg : s.playing = false ∧ s.silence_timer = 0
  · rw [if_pos hg] at h
    cases h
    exact ⟨h0, h1, h2⟩
  · rw [if_neg hg] at h
    dsimp only at h
    simp only [apply_ite Sound.sub_position, apply_ite Sound.position_increment,
      apply_ite Sound.position, apply_ite Sound.playing, apply_ite Sound.looping,
      apply_ite Sound.data, apply_ite Sound.ring, apply_ite Sound.samples,
      apply_ite Sound.silence_timer, apply_ite Sound.total_samples] at h
    simp only [ite_self] at h
    have hb := sub_ratTrunc_bounds (s.sub_position + s.position_increment) (by linarith)
    split at h
    · exact absurd h (by simp)
    · split at h
      · exact absurd h (by simp)
      · split at h
        · split at h
          · split at h
            · split at h
              · exact absurd h (by simp)
              · cases h
                exact ⟨by exact hb.1, by exact hb.2, h2⟩
            · cases h
              exact ⟨by exact hb.1, by exact hb.2, h2⟩
          · cases h
            exact ⟨by exact hb.1, by exact hb.2, h2⟩
        · cases h
          exact ⟨by exact hb.1, by exact hb.2, h2⟩

theorem set_volume_sub (g : Int → ℚ) (s : Sound) (db : Int) (r : Nat) :
    (Sound.set_volume g s db r).sub_position = s.sub_position := by
  unfold Sound.set_volume
  dsimp only
  split <;> rfl

theorem set_volume_inc (g : Int → ℚ) (s : Sound) (db : Int) (r : Nat) :
    (Sound.set_volume g s db r).position_increment = s.position_increment := by
  unfold Sound.set_volume
  dsimp only
  split <;> rfl

theorem set_pan_sub (g : Int → ℚ) (s : Sound) (db : Int) (r : Nat) :
    (Sound.set_pan g s db r).sub_position = s.sub_position := by
  unfold Sound.set_pan
  dsimp only
  split <;> (dsimp only; split <;> rfl)

theorem set_pan_inc (g : Int → ℚ) (s : Sound) (db : Int) (r : Nat) :
    (Sound.set_pan g s db r).position_increment = s.position_increment := by
  unfold Sound.set_pan
  dsimp only
  split <;> (dsimp only; split <;> rfl)

theorem init_SubInv (g : Int → ℚ) (s : Sound) (c sr vr : Nat) :
    SubInv (Sound.init g s c sr vr) := by
  have hs : (Sound.init g s c sr vr).sub_position = 0 := by
    unfold Sound.init
    dsimp only
    rw [set_pan_sub, set_volume_sub]
    rfl
  have hi : (Sound.init g s c sr vr).position_increment = (22050 : ℚ) / (sr : ℚ) := by
    unfold Sound.init
    dsimp only
    rw [set_pan_inc, set_volume_inc]
    rfl
  refine ⟨by rw [hs], by rw [hs]; norm_num, by rw [hi]; positivity⟩

theorem set_frequency_SubInv (s : Sound) (f sr : Nat) (h : SubInv s) :
    SubInv (s.set_frequency f sr) := by
  obtain ⟨h0, h1, h2⟩ := h
  exact ⟨h0, h1, by unfold Sound.set_frequency; dsimp only; positivity⟩

theorem set_volume_SubInv (g : Int → ℚ) (s : Sound) (db : Int) (r : Nat) (h : SubInv s) :
    SubInv (Sound.set_volume g s db r) := by
  obtain ⟨h0, h1, h2⟩ := h
  refine ⟨?_, ?_, ?_⟩
  · rw [set_volume_sub]; exact h0
  · rw [set_volume_sub]; exact h1
  · rw [set_volume_inc]; exact h2

theorem set_pan_SubInv (g : Int → ℚ) (s : Sound) (db : Int) (r : Nat) (h : SubInv s) :
    SubInv (Sound.set_pan g s db r) := by
  obtain ⟨h0, h1, h2⟩ := h
  refine ⟨?_, ?_, ?_⟩
  · rw [set_pan_sub]; exact h0
  · rw [set_pan_sub]; exact h1
  · rw [set_pan_inc]; exact h2

theorem play_SubInv (s : Sound) (l : Bool) (h : SubInv s) : SubInv (s.play l) := by
  obtain ⟨h0, h1, h2⟩ := h
  unfold Sound.play
  dsimp only
  split
  · split
    · exact ⟨le_refl 0, by norm_num, h2⟩
    · exact ⟨h0, h1, h2⟩
  · exact ⟨h0, h1, h2⟩

theorem stop_SubInv (s : Sound) (h : SubInv s) : SubInv s.stop := h

theorem applyOp_SubInv (g : Int → ℚ) (s s1 : Sound) (op : SoundOp) (h : SubInv s)
    (ha : applyOp g s op = some s1) : SubInv s1 := by
  cases op with
  | initOp c sr vr => cases ha; exact init_SubInv g s c sr vr
  | setFrequencyOp f sr => cases ha; exact set_frequency_SubInv s f sr h
  | setVolumeOp db r => cases ha; exact set_volume_SubInv g s db r h
  | setPanOp db r => cases ha; exact set_pan_SubInv g s db r h
  | playOp l => cases ha; exact play_SubInv s l h
  | stopOp => cases ha; exact stop_SubInv s h
  | writeOp i l r =>
    unfold applyOp at ha
    dsimp only at ha
    cases hw : Sound.write_sample i s l r with
    | none => rw [hw] at ha; simp at ha
    | some t =>
      rw [hw] at ha
      simp only [Option.map_some'] at ha
      cases ha
      exact write_sample_SubInv i s l r t h hw

theorem runOps_SubInv (g : Int → ℚ) : ∀ (ops : List SoundOp) (s s2 : Sound),
    SubInv s → runOps g s ops = some s2 → SubInv s2 := by
  intro ops
  induction ops with
  | nil =>
    intro s s2 h hr
    cases hr
    exact h
  | cons op rest ih =>
    intro s s2 h hr
    unfold runOps at hr
    cases hop : applyOp g s op with
    | none => rw [hop] at hr; simp at hr
    | some s1 =>
      rw [hop] at hr
      simp only [Option.some_bind] at hr
      exact ih s1 s2 (applyOp_SubInv g s s1 op h hop) hr

theorem readEvent_norm (rest : List Nat) (len j : Nat) (e : Event)
    (h : readEvent rest len j = some e) :
    (e.pitch < 96 ∨ e.pitch = PROPERTY_UNUSED) ∧ 1 ≤ e.length ∧
      (e.pan ≤ 12 ∨ e.pan = PROPERTY_UNUSED) := by
  unfold readEvent at h
  simp only [Option.bind_eq_bind, Option.bind_eq_some, Option.pure_def,
    Option.some.injEq] at h
  obtain ⟨p0, hp0, q0, hq0, l0, hl0, v0, hv0, n0, hn0, he⟩ := h
  subst he
  unfold PROPERTY_UNUSED
  refine ⟨?_, ?_, ?_⟩
  · dsimp only
    split
    · right; rfl
    · left; omega
  · dsimp only
    split
    · omega
    · omega
  · dsimp only
    split
    · left; omega
    · rename_i hcond
      rw [not_and_or] at hcond
      rcases hcond with hc | hc
      · left; omega
      · right; simpa using hc

theorem readEventsFrom_mem (rest : List Nat) (len : Nat) :
    ∀ (k j : Nat) (evs : List Event), readEventsFrom rest len j k = some evs →
      ∀ e ∈ evs, ∃ j2, readEvent rest len j2 = some e := by
  intro k
  induction k with
  | zero =>
    intro j evs h e he
    cases h
    simp at he
  | succ kk ih =>
    intro j evs h e he
    unfold readEventsFrom at h
    cases h0 : readEvent rest len j with
    | none => rw [h0] at h; simp at h
    | some e0 =>
      rw [h0] at h
      simp only [Option.bind_eq_bind, Option.some_bind] at h
      cases h1 : readEventsFrom rest len (j + 1) kk with
      | none => rw [h1] at h; simp at h
      | some es =>
        rw [h1] at h
        simp only [Option.some_bind, Option.pure_def, Option.some.injEq] at h
        subst h
        rcases List.mem_cons.mp he with he | he
        · exact ⟨j, he ▸ h0⟩
        · exact ih (j + 1) es h1 e he

theorem readAllEvents_norm : ∀ (hs : List ChannelHdr) (rest : List Nat) (chs : List Channel),
    readAllEvents rest hs = some chs →
    ∀ ch ∈ chs, ∀ e ∈ ch.events,
      (e.pitch < 96 ∨ e.pitch = PROPERTY_UNUSED) ∧ 1 ≤ e.length ∧
        (e.pan ≤ 12 ∨ e.pan = PROPERTY_UNUSED) := by
  intro hs
  induction hs with
  | nil =>
    intro rest chs h ch hch
    cases h
    simp at hch
  | cons h0 hrest ih =>
    intro rest chs h ch hch
    unfold readAllEvents at h
    cases he : readChannelEvents rest h0.event_count with
    | none => rw [he] at h; simp at h
    | some evs =>
      rw [he] at h
      simp only [Option.bind_eq_bind, Option.some_bind] at h
      split at h
      · cases hr : readAllEvents (rest.drop (h0.event_count * 8)) hrest with
        | none => rw [hr] at h; simp at h
        | some chs2 =>
          rw [hr] at h
          simp only [Option.some_bind, Option.pure_def, Option.some.injEq] at h
          subst h
          rcases List.mem_cons.mp hch with hch | hch
          · subst hch
            intro e hee
            obtain ⟨j2, hj2⟩ := readEventsFrom_mem rest h0.event_count h0.event_count 0 evs he e hee
            exact readEvent_norm rest h0.event_count j2 e hj2
          · exact ih _ chs2 hr ch hch
      · simp at h


/-! ## Concrete inputs used by the claim theorems -/

set_option maxRecDepth 16384

/-- A fixed gain curve used to instantiate the gain parameter in concrete
scenarios; no claim depends on its values. -/
def gainOne : Int → ℚ := fun _ => 1

/-- A looping voice in mid playback, as the active alt voice of a melody
channel is while a note sounds. -/
def playingSound : Sound :=
  { defaultSound with playing := true, looping := true, data := List.replicate 16 0 }

/-- A note on event with pitch 45 while pitch 40 is active (claim C1). -/
def c1event : Event := { position := 0, pitch := 45, length := 4, volume := 255, pan := 255 }

/-- Non pizzicato channel holding the C1 event. -/
def c1chan : Channel :=
  { instrument := 0, finetune := 1000, pizzicato := false, events := [c1event] }

/-- Melody state with an active note of pitch 40 on alt voice 0. -/
def c1melody : Melody :=
  { pitch := 40, volume := 200, pan := 6, index := 0, ticks := 5, alt := 0, muted := false,
    snd_pairs := List.replicate 8 (playingSound, defaultSound) }

/-- Pizzicato channel with two note on events at ticks 0 and 4 (claim C4). -/
def c4chan : Channel :=
  { instrument := 0, finetune := 1000, pizzicato := true,
    events := [{ position := 0, pitch := 40, length := 3, volume := 255, pan := 255 },
               { position := 4, pitch := 40, length := 3, volume := 255, pan := 255 }] }

/-- Fresh melody state before the C4 scenario. -/
def c4melody : Melody :=
  { pitch := 255, volume := 200, pan := 6, index := 0, ticks := 0, alt := 0, muted := false,
    snd_pairs := List.replicate 8 (defaultSound, defaultSound) }

/-- Run tick_melody for one channel at positions 0, 1, ..., n - 1. -/
def tickRun (g : Int → ℚ) (sr vr : Nat) (ch : Channel) (m : Melody) : Nat → Option Melody
  | 0 => some m
  | n + 1 => (tickRun g sr vr ch m n).bind (fun m2 => tick_melody g n sr vr m2 ch)

/-- Percussion channel with a note on of pitch 95 at tick 0 (claim C7). -/
def c7chan : Channel :=
  { instrument := 0, finetune := 1000, pizzicato := false,
    events := [{ position := 0, pitch := 95, length := 1, volume := 255, pan := 255 }] }

/-- Percussion note on of pitch 40, for the C7 witness. -/
def c7wevent : Event := { position := 0, pitch := 40, length := 1, volume := 255, pan := 255 }

/-- Percussion channel holding the C7 witness event. -/
def c7wchan : Channel :=
  { instrument := 0, finetune := 1000, pizzicato := false, events := [c7wevent] }

/-- A 114 byte song whose channel 0 declares one event but carries no
event table bytes (claim C2). -/
def c2bytes : List Nat :=
  [79, 114, 103, 45, 48, 49, 125, 0, 4, 4] ++ List.replicate 8 0 ++
    [232, 3, 0, 0, 1, 0] ++ (List.replicate 15 [232, 3, 0, 0, 0, 0]).flatten

/-- A structurally complete song whose channel 0 has finetune 65535 and a
single note on of pitch 95 (claim C3). -/
def c3bytes : List Nat :=
  [79, 114, 103, 45, 48, 49, 125, 0, 4, 4] ++ List.replicate 8 0 ++
    [255, 255, 0, 0, 1, 0] ++ (List.replicate 15 [232, 3, 0, 0, 0, 0]).flatten ++
    [0, 0, 0, 0, 95, 1, 255, 255]

/-- The single event of the C3 song. -/
def c3event0 : Event := { position := 0, pitch := 95, length := 1, volume := 255, pan := 255 }

/-- Channel 0 of the C3 song. -/
def c3chan0 : Channel :=
  { instrument := 0, finetune := 65535, pizzicato := false, events := [c3event0] }

/-- An event free channel with neutral finetune. -/
def emptyChan : Channel :=
  { instrument := 0, finetune := 1000, pizzicato := false, events := [] }

/-- The song Song::read produces from c3bytes. -/
def c3song : Song :=
  { tempo_ms := 125, repeat_start := 0, repeat_end := 0,
    channels := c3chan0 :: List.replicate 15 emptyChan,
    beats_per_measure := 4, steps_per_beat := 4 }

/-- Channel 0 for the seek counterexample: events at positions 0 and 5,
both below the seek target 10 (claim C5). -/
def c5chan0 : Channel :=
  { instrument := 0, finetune := 1000, pizzicato := false,
    events := [{ position := 0, pitch := 40, length := 3, volume := 255, pan := 255 },
               { position := 5, pitch := 42, length := 3, volume := 255, pan := 255 }] }

/-- Player whose song carries c5chan0 as channel 0. -/
def c5player : Player :=
  { Player.default with song :=
      { Song.default with channels := c5chan0 :: (Song.default.channels.drop 1) } }

/-- A soundbank whose first percussion record consumes every remaining
byte, so that reading the second length field fails after the melody block
has already been overwritten (claim C6). -/
def c6bank : List Nat := List.replicate 25600 1 ++ [164, 0, 0, 0] ++ List.replicate 164 7

/-- Extract the player state carried by an Err result. -/
def bankErrState : BankResult → Option Player
  | BankResult.err p => some p
  | _ => Option.none

/-- A soundbank that passes the length precheck but whose first percussion
record declares 4294967295 bytes (claim C10). -/
def c10bank : List Nat := List.replicate 25600 0 ++ [255, 255, 255, 255] ++ List.replicate 164 0

theorem c6bank_len : c6bank.length = 25768 := by
  show ((List.replicate 25600 1 ++ [164, 0, 0, 0]) ++ List.replicate 164 7).length = 25768
  rw [List.length_append, List.length_append, List.length_replicate, List.length_replicate]
  decide

theorem c6bank_drop : c6bank.drop 25600 = [164, 0, 0, 0] ++ List.replicate 164 7 := by
  show ((List.replicate 25600 1 ++ [164, 0, 0, 0]) ++ List.replicate 164 7).drop 25600 =
    [164, 0, 0, 0] ++ List.replicate 164 7
  rw [List.append_assoc]
  exact List.drop_left' (List.length_replicate 25600 1)

theorem c6bank_take : c6bank.take 25600 = List.replicate 25600 1 := by
  show ((List.replicate 25600 1 ++ [164, 0, 0, 0]) ++ List.replicate 164 7).take 25600 =
    List.replicate 25600 1
  rw [List.append_assoc]
  exact List.take_left' (List.length_replicate 25600 1)

theorem c10bank_len : c10bank.length = 25768 := by
  show ((List.replicate 25600 0 ++ [255, 255, 255, 255]) ++ List.replicate 164 0).length = 25768
  rw [List.length_append, List.length_append, List.length_replicate, List.length_replicate]
  decide

theorem c10bank_drop : c10bank.drop 25600 = [255, 255, 255, 255] ++ List.replicate 164 0 := by
  show ((List.replicate 25600 0 ++ [255, 255, 255, 255]) ++ List.replicate 164 0).drop 25600 =
    [255, 255, 255, 255] ++ List.replicate 164 0
  rw [List.append_assoc]
  exact List.drop_left' (List.length_replicate 25600 0)

/-! ## Claim theorems -/

/-- C1 counterexample: on a note on with a prior active note on a non
pizzicato channel, the claim says the active alt voice is stopped, its
playing flag becoming false and its silence timer 8.  In the code the call
is play(false), not stop(): after the tick the old alt voice of the
concrete scenario still has playing = true and silence_timer = 0 (only its
looping flag fell to false), refuting the claim. -/
theorem C1_counterexample :
    ((tick_melody gainOne 0 44100 176 c1melody c1chan).bind
        (fun m2 => melodySlot m2 3 0)).map
      (fun s => (s.playing, s.silence_timer, s.looping)) = some (true, 0, false) ∧
    ((true, (0 : Nat)) ≠ (false, (8 : Nat))) := ⟨by decide, by decide⟩

/-- C1 amended: for every melody channel note on event with non sentinel
pitch on a non pizzicato channel, when a prior note is active, the
currently active alt voice is switched to one shot via play(false): its
looping flag becomes false while playing becomes true and its silence
timer is unchanged (it only stops, with silence_timer = 8, once its
playhead later passes the end of its data); then alt is flipped and the
new voice is started looping. -/
theorem C1_amended (g : Int → ℚ) (sr vr : Nat) (m : Melody) (ch : Channel) (e : Event)
    (hev : ch.events.get? m.index = some e)
    (hmut : m.muted = false)
    (hep : e.pitch ≠ PROPERTY_UNUSED)
    (hmp : m.pitch ≠ PROPERTY_UNUSED)
    (hpz : ch.pizzicato = false)
    (hlen0 : e.length ≠ 0)
    (hft : ch.finetune ≤ 3303)
    (hlen8 : m.snd_pairs.length = 8)
    (hgo : m.pitch / 12 < 8)
    (hge : e.pitch / 12 < 8)
    (halt : m.alt = 0 ∨ m.alt = 1)
    (hpan : e.pan ≤ 12 ∨ e.pan = PROPERTY_UNUSED) :
    ∃ m2, tick_melody g e.position sr vr m ch = some m2 ∧
      m2.alt = m.alt ^^^ 1 ∧
      (∀ s0, melodySlot m (m.pitch / 12) m.alt = some s0 →
        ∃ s2, melodySlot m2 (m.pitch / 12) m.alt = some s2 ∧
          s2.looping = false ∧ s2.playing = true ∧ s2.silence_timer = s0.silence_timer) ∧
      (∃ s3, melodySlot m2 (e.pitch / 12) (m.alt ^^^ 1) = some s3 ∧
        s3.playing = true ∧ s3.looping = true) := by
  have haltE : m.alt ^^^ 1 = 0 ∨ m.alt ^^^ 1 = 1 := by
    rcases halt with h | h <;> rw [h] <;> simp
  have haltNe : m.alt ^^^ 1 ≠ m.alt := by
    rcases halt with h | h <;> rw [h] <;> simp
  have hL0 : (listUpd m.snd_pairs (m.pitch / 12)
      (fun pr => pairSet pr m.alt (fun s => s.play false))).length = 8 := by
    rw [listUpd_length]; exact hlen8
  have hL1 : (pairsFreqMapped sr e.pitch ch.finetune 0
      (listUpd m.snd_pairs (m.pitch / 12)
        (fun pr => pairSet pr m.alt (fun s => s.play false)))).length = 8 := by
    rw [pairsFreqMapped_length]; exact hL0
  have hL2 : (listUpd (pairsFreqMapped sr e.pitch ch.finetune 0
      (listUpd m.snd_pairs (m.pitch / 12)
        (fun pr => pairSet pr m.alt (fun s => s.play false))))
      (e.pitch / 12) (fun pr => pairSet pr (m.alt ^^^ 1) (fun s => s.play true))).length = 8 := by
    rw [listUpd_length]; exact hL1
  have hOld3 : ((listUpd (pairsFreqMapped sr e.pitch ch.finetune 0
      (listUpd m.snd_pairs (m.pitch / 12)
        (fun pr => pairSet pr m.alt (fun s => s.play false))))
      (e.pitch / 12) (fun pr => pairSet pr (m.alt ^^^ 1) (fun s => s.play true))).get?
        (m.pitch / 12)).map (fun pr => pairGet pr m.alt) =
      ((m.snd_pairs.get? (m.pitch / 12)).map (fun pr => pairGet pr m.alt)).map
        (fun s0 => (s0.play false).set_frequency
          (sndFreqVal e.pitch ch.finetune (m.pitch / 12)).toNat sr) := by
    rw [slot_other_layer _ _ _ _ _ _ (by omega) halt haltE haltNe]
    rw [slot_freq_layer]
    rw [slot_same_layer _ _ _ _ (by omega)]
    cases m.snd_pairs.get? (m.pitch / 12) <;> rfl
  have hNew3 : ((listUpd (pairsFreqMapped sr e.pitch ch.finetune 0
      (listUpd m.snd_pairs (m.pitch / 12)
        (fun pr => pairSet pr m.alt (fun s => s.play false))))
      (e.pitch / 12) (fun pr => pairSet pr (m.alt ^^^ 1) (fun s => s.play true))).get?
        (e.pitch / 12)).map (fun pr => pairGet pr (m.alt ^^^ 1)) =
      ((m.snd_pairs.get? (e.pitch / 12)).map (fun pr => pairGet pr (m.alt ^^^ 1))).map
        (fun s => ((s.set_frequency
          (sndFreqVal e.pitch ch.finetune (e.pitch / 12)).toNat sr).play true)) := by
    rw [slot_same_layer _ _ _ _ (by omega)]
    rw [slot_freq_layer]
    rw [slot_other_layer _ _ _ _ _ _ (by omega) haltE halt (by omega)]
    cases m.snd_pairs.get? (e.pitch / 12) <;> rfl
  unfold tick_melody
  rw [hev]
  dsimp only [pitchAltUpdate]
  rw [if_neg (by rw [hmut]; exact Bool.false_ne_true)]
  rw [if_pos (rfl : e.position = e.position)]
  rw [if_pos hep, if_pos hmp, if_pos hpz, hpz]
  dsimp only
  rw [setPairsFreq_ok sr e.pitch ch.finetune hft _ 0
    (by rw [listUpd_length]; omega)]
  simp only [Option.bind_eq_bind, Option.some_bind, Option.pure_def]
  simp only [ne_eq, hep, not_false_eq_true, if_true, hlen0, if_false, Bool.not_false]
  have hgesome : ∃ prE, m.snd_pairs.get? (e.pitch / 12) = some prE := by
    rw [List.get?_eq_get (show e.pitch / 12 < m.snd_pairs.length by omega)]
    exact ⟨_, rfl⟩
  obtain ⟨prE, hprE⟩ := hgesome
  by_cases hv : e.volume = PROPERTY_UNUSED
  · rw [if_neg (not_not_intro hv)]
    by_cases hpn : e.pan = PROPERTY_UNUSED
    · rw [if_neg (not_not_intro hpn)]
      refine ⟨_, rfl, rfl, ?_, ?_⟩
      · intro s0 hs0
        unfold melodySlot at hs0 ⊢
        dsimp only
        rw [hOld3, hs0]
        simp only [Option.map_some']
        exact ⟨_, rfl,
          by rw [(set_frequency_flags _ _ _).2.1, (play_flags _ _).2.1],
          by rw [(set_frequency_flags _ _ _).1, (play_flags _ _).1],
          by rw [(set_frequency_flags _ _ _).2.2, (play_flags _ _).2.2]⟩
      · unfold melodySlot
        dsimp only
        rw [hNew3, hprE]
        simp only [Option.map_some']
        exact ⟨_, rfl, (play_flags _ _).1, (play_flags _ _).2.1⟩
    · rw [if_pos hpn]
      obtain ⟨t, ht⟩ := Option.isSome_iff_exists.mp
        (panTable_isSome e.pan (by omega))
      rw [ht]
      simp only [Option.some_bind]
      refine ⟨_, rfl, rfl, ?_, ?_⟩
      · intro s0 hs0
        unfold melodySlot at hs0 ⊢
        dsimp only
        rw [slot_other_layer _ _ _ _ _ _ (by rw [hL2]; omega) halt haltE haltNe]
        rw [hOld3, hs0]
        simp only [Option.map_some']
        exact ⟨_, rfl,
          by rw [(set_frequency_flags _ _ _).2.1, (play_flags _ _).2.1],
          by rw [(set_frequency_flags _ _ _).1, (play_flags _ _).1],
          by rw [(set_frequency_flags _ _ _).2.2, (play_flags _ _).2.2]⟩
      · unfold melodySlot
        dsimp only
        rw [slot_same_layer _ _ _ _ (by rw [hL2]; omega)]
        rw [hNew3, hprE]
        simp only [Option.map_some']
        exact ⟨_, rfl,
          by rw [(set_pan_flags _ _ _ _).1, (play_flags _ _).1],
          by rw [(set_pan_flags _ _ _ _).2.1, (play_flags _ _).2.1]⟩
  · rw [if_pos hv]
    by_cases hpn : e.pan = PROPERTY_UNUSED
    · rw [if_neg (not_not_intro hpn)]
      refine ⟨_, rfl, rfl, ?_, ?_⟩
      · intro s0 hs0
        unfold melodySlot at hs0 ⊢
        dsimp only
        rw [slot_other_layer _ _ _ _ _ _ (by rw [hL2]; omega) halt haltE haltNe]
        rw [hOld3, hs0]
        simp only [Option.map_some']
        exact ⟨_, rfl,
          by rw [(set_frequency_flags _ _ _).2.1, (play_flags _ _).2.1],
          by rw [(set_frequency_flags _ _ _).1, (play_flags _ _).1],
          by rw [(set_frequency_flags _ _ _).2.2, (play_flags _ _).2.2]⟩
      · unfold melodySlot
        dsimp only
        rw [slot_same_layer _ _ _ _ (by rw [hL2]; omega)]
        rw [hNew3, hprE]
        simp only [Option.map_some']
        exact ⟨_, rfl,
          by rw [(set_volume_flags _ _ _ _).1, (play_flags _ _).1],
          by rw [(set_volume_flags _ _ _ _).2.1, (play_flags _ _).2.1]⟩
    · rw [if_pos hpn]
      obtain ⟨t, ht⟩ := Option.isSome_iff_exists.mp
        (panTable_isSome e.pan (by omega))
      rw [ht]
      simp only [Option.some_bind]
      refine ⟨_, rfl, rfl, ?_, ?_⟩
      · intro s0 hs0
        unfold melodySlot at hs0 ⊢
        dsimp only
        rw [slot_other_layer _ _ _ _ _ _
          (by rw [listUpd_length, hL2]; omega) halt haltE haltNe]
        rw [slot_other_layer _ _ _ _ _ _ (by rw [hL2]; omega) halt haltE haltNe]
        rw [hOld3, hs0]
        simp only [Option.map_some']
        exact ⟨_, rfl,
          by rw [(set_frequency_flags _ _ _).2.1, (play_flags _ _).2.1],
          by rw [(set_frequency_flags _ _ _).1, (play_flags _ _).1],
          by rw [(set_frequency_flags _ _ _).2.2, (play_flags _ _).2.2]⟩
      · unfold melodySlot
        dsimp only
        rw [slot_same_layer _ _ _ _ (by rw [listUpd_length, hL2]; omega)]
        rw [slot_same_layer _ _ _ _ (by rw [hL2]; omega)]
        rw [hNew3, hprE]
        simp only [Option.map_some']
        exact ⟨_, rfl,
          by rw [(set_pan_flags _ _ _ _).1, (set_volume_flags _ _ _ _).1, (play_flags _ _).1],
          by rw [(set_pan_flags _ _ _ _).2.1, (set_volume_flags _ _ _ _).2.1,
            (play_flags _ _).2.1]⟩

/-- C1 witness: the amended theorem applied to the concrete C1 scenario
shows in particular that the alt selector flips on the retrigger. -/
theorem C1_amended_witness :
    (tick_melody gainOne 0 44100 176 c1melody c1chan).map Melody.alt = some 1 := by
  obtain ⟨m2, hm2, halt2, _, _⟩ := C1_amended gainOne 44100 176 c1melody c1chan c1event
    (by decide) (by decide) (by decide) (by decide) (by decide) (by decide) (by decide)
    (by decide) (by decide) (by decide) (Or.inl (by decide)) (Or.inr (by decide))
  show (tick_melody gainOne c1event.position 44100 176 c1melody c1chan).map Melody.alt = some 1
  rw [hm2]
  simp only [Option.map_some']
  rw [halt2]
  decide

/-- C2 counterexample: a 114 byte input whose header is complete and valid
but whose channel 0 declares one event with no event table bytes behind
it; Song::read panics (out of bounds index in u32_le_at) instead of
returning Malformed. -/
theorem C2_counterexample :
    Song.read c2bytes = SongResult.panicked ∧ 114 ≤ c2bytes.length :=
  ⟨by decide, by decide⟩

/-- C2 amended: Song::read returns Malformed whenever the data is shorter
than the 114 byte header, the magic is wrong, or the wrapped version
digits decode outside one to three; but when the declared event tables
run past the end of the data it panics instead of returning Malformed. -/
theorem C2_amended (data : List Nat)
    (h : data.length < 114 ∨ data.take 4 ≠ orgMagic ∨
      songVersion data < 1 ∨ 3 < songVersion data) :
    Song.read data = SongResult.malformed := by
  unfold Song.read
  rcases h with h | h | h | h
  · rw [if_pos h]
  · by_cases h1 : data.length < 114
    · rw [if_pos h1]
    · rw [if_neg h1, if_pos h]
  · by_cases h1 : data.length < 114
    · rw [if_pos h1]
    · rw [if_neg h1]
      by_cases h2 : data.take 4 ≠ orgMagic
      · rw [if_pos h2]
      · rw [if_neg h2, if_pos (Or.inl h)]
  · by_cases h1 : data.length < 114
    · rw [if_pos h1]
    · rw [if_neg h1]
      by_cases h2 : data.take 4 ≠ orgMagic
      · rw [if_pos h2]
      · rw [if_neg h2, if_pos (Or.inr h)]

/-- C2 witness: the amended theorem applied to the empty input. -/
theorem C2_amended_witness : Song.read [] = SongResult.malformed :=
  C2_amended [] (Or.inl (by decide))

/-- C3: the render loop can panic on loader accepted input.  The song
c3bytes is structurally complete (Song::read returns Ok) with finetune
65535 and a note of pitch 95; the first tick computes snd_freq = 80343
for pair group 0, and u16::try_from(80343).unwrap() panics inside
tick_melodies (reached from write_next through tick). -/
theorem C3_render_panics :
    Song.read c3bytes = SongResult.ok c3song ∧
    tick_melodies gainOne 0 44100 176 (List.replicate 8 defaultMelody) c3song.channels =
      Option.none ∧
    sndFreqVal 95 65535 0 = 80343 :=
  ⟨by decide, by decide, by decide⟩

/-- C4 counterexample: on the pizzicato two note scenario the alt selector
does flip on the second note on (alt becomes 1), contradicting the claim
that alt does not flip. -/
theorem C4_counterexample :
    (tickRun gainOne 44100 176 c4chan c4melody 5).map Melody.alt = some 1 ∧
    (1 : Nat) ≠ 0 := ⟨by decide, by decide⟩

/-- C4 amended: on a pizzicato channel with note ons at ticks 0 and 4, the
second note on flips alt and starts the other voice of the pair one shot
with its position reset to 0, while the first voice is not stopped
(pizzicato skips the play(false) call on the old voice, which keeps
playing = true from the first note). -/
theorem C4_amended :
    (tickRun gainOne 44100 176 c4chan c4melody 5).map Melody.alt = some 1 ∧
    ((tickRun gainOne 44100 176 c4chan c4melody 5).bind (fun m2 =>
        (melodySlot m2 3 1).map (fun s => (s.playing, s.position, s.looping)))) =
      some (true, 0, false) ∧
    ((tickRun gainOne 44100 176 c4chan c4melody 5).bind (fun m2 =>
        (melodySlot m2 3 0).map (fun s => (s.playing, s.looping)))) = some (true, false) :=
  ⟨by decide, by decide, by decide⟩

/-- C5 counterexample: seeking to position 10 on a channel whose events
sit at positions 0 and 5 leaves the event index at 0, not at the last
index 1 the claim requires. -/
theorem C5_counterexample :
    ((c5player.seek 10).melodies.get? 0).map Melody.index = some 0 ∧
    c5chan0.events.length - 1 = 1 ∧ (0 : Nat) ≠ 1 :=
  ⟨by decide, by decide, by decide⟩

/-- C5 amended: Seek(pos) sets position and last_position to pos and sets
each channel index to the index of the first event whose position is at
least pos, or to 0 (not the last index) when no such event exists. -/
theorem C5_amended (p : Player) (pos : Nat) :
    (p.seek pos).position = pos ∧ (p.seek pos).last_position = pos ∧
    (∀ i m ch, p.melodies.get? i = some m → (p.song.channels.take 8).get? i = some ch →
      ((p.seek pos).melodies.get? i).map Melody.index = some (seekIndex pos ch.events)) ∧
    (∀ i pc ch, p.percussions.get? i = some pc → (p.song.channels.drop 8).get? i = some ch →
      ((p.seek pos).percussions.get? i).map Percussion.index = some (seekIndex pos ch.events)) ∧
    (∀ (events : List Event) (j : Nat) (ev : Event),
      events.get? j = some ev → pos ≤ ev.position →
      (∀ k ek, k < j → events.get? k = some ek → ek.position < pos) →
      seekIndex pos events = j) ∧
    (∀ events : List Event, (∀ e ∈ events, e.position < pos) → seekIndex pos events = 0) := by
  refine ⟨rfl, rfl, ?_, ?_, ?_, ?_⟩
  · intro i m ch hm hch
    rw [show (p.seek pos).melodies = seekMelodies pos p.melodies (p.song.channels.take 8)
      from rfl]
    rw [seekMelodies_get? pos p.melodies _ i m ch hm hch]
    rfl
  · intro i pc ch hm hch
    rw [show (p.seek pos).percussions =
      seekPercussions pos p.percussions (p.song.channels.drop 8) from rfl]
    rw [seekPercussions_get? pos p.percussions _ i pc ch hm hch]
    rfl
  · intro events j ev hj hle hb
    unfold seekIndex
    rw [seekIndexFrom_found pos events 0 j ev hj hle hb]
    omega
  · intro events h
    exact seekIndexFrom_notfound pos events 0 h

/-- C5 witness: the amended theorem applied to the default player and to
two concrete event lists, one with a matching event and one without. -/
theorem C5_amended_witness :
    (Player.default.seek 3).position = 3 ∧ (Player.default.seek 3).last_position = 3 ∧
    seekIndex 3 [{ position := 5, pitch := 0, length := 1, volume := 0, pan := 0 }] = 0 ∧
    seekIndex 3 [{ position := 1, pitch := 0, length := 1, volume := 0, pan := 0 }] = 0 := by
  refine ⟨(C5_amended Player.default 3).1, (C5_amended Player.default 3).2.1, ?_, ?_⟩
  · exact (C5_amended Player.default 3).2.2.2.2.1
      [{ position := 5, pitch := 0, length := 1, volume := 0, pan := 0 }] 0
      { position := 5, pitch := 0, length := 1, volume := 0, pan := 0 } (by decide) (by decide)
      (fun k ek hk hget => absurd hk (Nat.not_lt_zero k))
  · exact (C5_amended Player.default 3).2.2.2.2.2 _ (by decide)

/-- C6 counterexample: on c6bank read_soundbank returns Err(Malformed)
after having already overwritten melody_wave_data (and percussion slot 0),
so the engine state on this error path is not what it was before the
call. -/
theorem C6_counterexample :
    read_soundbank Player.default c6bank =
      BankResult.err { Player.default with
        melody_wave_data := List.replicate 25600 1,
        percussion_wave_data := List.replicate 164 (7 : Int) :: List.replicate 41 [] } ∧
    List.replicate 25600 (1 : Int) ≠ Player.default.melody_wave_data := by
  constructor
  · unfold read_soundbank
    rw [if_neg (by rw [c6bank_len]; omega), c6bank_drop, c6bank_take, List.map_replicate]
    have hp : readPercs (([164, 0, 0, 0] : List Nat) ++ List.replicate 164 7)
        Player.default.percussion_wave_data =
        PercResult.malformed (List.replicate 164 (7 : Int) :: List.replicate 41 []) := by
      decide
    rw [hp]
    have ha : asI8 1 = 1 := by decide
    rw [ha]
  · decide

/-- C6 amended: read_song leaves the player untouched on every Malformed
return of Song::read, and read_soundbank leaves it untouched on the
initial length precheck error; but a Malformed error from a truncated
percussion length field arrives only after melody_wave_data and earlier
percussion slots have been overwritten (see the counterexample). -/
theorem C6_amended (g : Int → ℚ) (p : Player) (data : List Nat) :
    (Song.read data = SongResult.malformed → read_song g p data = LoadResult.err p) ∧
    (data.length < 25600 + 42 * 4 → read_soundbank p data = BankResult.err p) := by
  constructor
  · intro h
    unfold read_song
    rw [h]
  · intro h
    unfold read_soundbank
    rw [if_pos h]

/-- C6 witness: the amended theorem applied to the empty input. -/
theorem C6_amended_witness :
    read_song gainOne Player.default [] = LoadResult.err Player.default ∧
    read_soundbank Player.default [] = BankResult.err Player.default :=
  ⟨(C6_amended gainOne Player.default []).1 (by decide),
   (C6_amended gainOne Player.default []).2 (by decide)⟩

/-- C7 counterexample: a percussion note on of pitch 95 sets the voice
frequency to (95 * 800 + 100) mod 65536 = 10564, not the claimed 76100:
the u16 product wraps. -/
theorem C7_counterexample :
    (tick_percussion gainOne 0 44100 176 defaultPercussion c7chan).map
      (fun pc => pc.sound.frequency) = some 10564 ∧
    (10564 : Nat) ≠ 95 * 800 + 100 :=
  ⟨by decide, by decide⟩

/-- C7 amended: a percussion note on of pitch p sets the voice frequency
to (p * 800 + 100) mod 65536, which equals p * 800 + 100 exactly when p
is at most 81. -/
theorem C7_amended (g : Int → ℚ) (sr vr position : Nat) (pc : Percussion) (ch : Channel)
    (e : Event)
    (hev : ch.events.get? pc.index = some e)
    (hmut : pc.muted = false)
    (hpos : position = e.position)
    (hp : e.pitch ≠ PROPERTY_UNUSED)
    (hpan : e.pan ≤ 12 ∨ e.pan = PROPERTY_UNUSED) :
    ∃ pc2, tick_percussion g position sr vr pc ch = some pc2 ∧
      pc2.pitch = e.pitch ∧
      pc2.sound.frequency = (e.pitch * 800 + 100) % 65536 ∧
      (e.pitch ≤ 81 → pc2.sound.frequency = e.pitch * 800 + 100) := by
  subst hpos
  unfold tick_percussion
  rw [hmut, hev]
  simp only [Bool.false_eq_true, if_false, ne_eq, not_true_eq_false, ite_not]
  rw [if_neg hp]
  simp only [Option.pure_def, Option.bind_eq_bind, Option.some_bind]
  have hfreq : ((pc.sound.stop.set_frequency ((e.pitch * 800 + 100) % 65536) sr).play
      false).frequency = (e.pitch * 800 + 100) % 65536 := by
    rw [play_frequency]
    rfl
  have hmod : e.pitch ≤ 81 → (e.pitch * 800 + 100) % 65536 = e.pitch * 800 + 100 := by
    intro h81
    exact Nat.mod_eq_of_lt (by omega)
  by_cases hv : e.volume = PROPERTY_UNUSED
  · rw [if_pos hv]
    by_cases hpn : e.pan = PROPERTY_UNUSED
    · rw [if_pos hpn]
      exact ⟨_, rfl, rfl, hfreq, fun h81 => by rw [hfreq]; exact hmod h81⟩
    · rw [if_neg hpn]
      have hple : e.pan ≤ 12 := hpan.resolve_right hpn
      obtain ⟨t, ht⟩ := Option.isSome_iff_exists.mp (panTable_isSome e.pan (by omega))
      rw [ht]
      simp only [Option.bind_eq_bind, Option.some_bind]
      refine ⟨_, rfl, rfl, ?_, ?_⟩
      · rw [set_pan_frequency, hfreq]
      · intro h81
        rw [set_pan_frequency, hfreq]
        exact hmod h81
  · rw [if_neg hv]
    by_cases hpn : e.pan = PROPERTY_UNUSED
    · rw [if_pos hpn]
      refine ⟨_, rfl, rfl, ?_, ?_⟩
      · rw [set_volume_frequency, hfreq]
      · intro h81
        rw [set_volume_frequency, hfreq]
        exact hmod h81
    · rw [if_neg hpn]
      have hple : e.pan ≤ 12 := hpan.resolve_right hpn
      obtain ⟨t, ht⟩ := Option.isSome_iff_exists.mp (panTable_isSome e.pan (by omega))
      rw [ht]
      simp only [Option.bind_eq_bind, Option.some_bind]
      refine ⟨_, rfl, rfl, ?_, ?_⟩
      · rw [set_pan_frequency, set_volume_frequency, hfreq]
      · intro h81
        rw [set_pan_frequency, set_volume_frequency, hfreq]
        exact hmod h81

/-- C7 witness: the amended theorem applied to a note on of pitch 40,
where the in range frequency 32100 is produced. -/
theorem C7_amended_witness :
    (tick_percussion gainOne 0 44100 176 defaultPercussion c7wchan).map
      (fun pc => pc.sound.frequency) = some 32100 := by
  obtain ⟨pc2, hpc2, _, hfreq, _⟩ := C7_amended gainOne 44100 176 0 defaultPercussion
    c7wchan c7wevent (by decide) (by decide) (by decide) (by decide) (Or.inr (by decide))
  rw [hpc2]
  simp only [Option.map_some']
  rw [hfreq]
  decide

/-- C8: for every gain curve, start state and operation sequence, after
Sound::init and after every successful write_sample (and across all other
voice operations) the fractional playhead satisfies
0 le sub_position lt 1. -/
theorem C8_sub_position (g : Int → ℚ) (s0 : Sound) (c sr vr : Nat)
    (ops : List SoundOp) (s1 : Sound)
    (h : runOps g (Sound.init g s0 c sr vr) ops = some s1) :
    0 ≤ s1.sub_position ∧ s1.sub_position < 1 := by
  have hv := runOps_SubInv g ops _ s1 (init_SubInv g s0 c sr vr) h
  exact ⟨hv.1, hv.2.1⟩

/-- C8 witness: the invariant theorem applied to a concrete init, play,
stop, set_frequency sequence. -/
theorem C8_sub_position_witness :
    0 ≤ ((((Sound.init gainOne defaultSound 4 44100 176).play true).stop).set_frequency
      100 44100).sub_position ∧
    ((((Sound.init gainOne defaultSound 4 44100 176).play true).stop).set_frequency
      100 44100).sub_position < 1 :=
  C8_sub_position gainOne defaultSound 4 44100 176
    [SoundOp.playOp true, SoundOp.stopOp, SoundOp.setFrequencyOp 100 44100] _ rfl

/-- C9: after Song::read returns Ok, every event of every channel has
pitch below 96 or equal to the sentinel, length at least 1, and pan at
most 12 or equal to the sentinel. -/
theorem C9_normalized (data : List Nat) (s : Song) (h : Song.read data = SongResult.ok s) :
    ∀ ch ∈ s.channels, ∀ e ∈ ch.events,
      (e.pitch < 96 ∨ e.pitch = PROPERTY_UNUSED) ∧ 1 ≤ e.length ∧
        (e.pan ≤ 12 ∨ e.pan = PROPERTY_UNUSED) := by
  unfold Song.read at h
  by_cases h1 : data.length < 114
  · rw [if_pos h1] at h
    exact absurd h (by simp)
  rw [if_neg h1] at h
  by_cases h2 : data.take 4 ≠ orgMagic
  · rw [if_pos h2] at h
    exact absurd h (by simp)
  rw [if_neg h2] at h
  dsimp only at h
  by_cases h3 : songVersion data < 1 ∨ 3 < songVersion data
  · rw [if_pos h3] at h
    exact absurd h (by simp)
  rw [if_neg h3] at h
  cases ht : u16_le_at data 6 with
  | none => rw [ht] at h; exact absurd h (by simp)
  | some tempo =>
  rw [ht] at h
  cases hbm : u8_at data 8 with
  | none => rw [hbm] at h; exact absurd h (by simp)
  | some beats =>
  rw [hbm] at h
  cases hsb : u8_at data 9 with
  | none => rw [hsb] at h; exact absurd h (by simp)
  | some steps =>
  rw [hsb] at h
  cases hrs : u32_le_at data 10 with
  | none => rw [hrs] at h; exact absurd h (by simp)
  | some rs =>
  rw [hrs] at h
  cases hre : u32_le_at data 14 with
  | none => rw [hre] at h; exact absurd h (by simp)
  | some re =>
  rw [hre] at h
  dsimp only at h
  cases hh : readChannelHeaders data (songVersion data) 0 16 with
  | none => rw [hh] at h; exact absurd h (by simp)
  | some hdrs =>
  rw [hh] at h
  dsimp only at h
  cases hc : readAllEvents (data.drop 114) hdrs with
  | none => rw [hc] at h; exact absurd h (by simp)
  | some channels =>
  rw [hc] at h
  rw [SongResult.ok.injEq] at h
  subst h
  exact readAllEvents_norm hdrs _ channels hc

/-- C9 witness: the normalisation theorem applied to the concrete song
c3bytes and the event of its channel 0. -/
theorem C9_normalized_witness :
    ((95 : Nat) < 96 ∨ (95 : Nat) = PROPERTY_UNUSED) ∧ 1 ≤ (1 : Nat) ∧
      ((255 : Nat) ≤ 12 ∨ (255 : Nat) = PROPERTY_UNUSED) :=
  C9_normalized c3bytes c3song (by decide) c3chan0 (by decide) c3event0 (by decide)

/-- C10: a soundbank of exactly 25600 + 42 * 4 bytes whose first
percussion record declares a length of 4294967295 makes read_soundbank
panic (slice split out of bounds in next_n_bytes) instead of returning an
error. -/
theorem C10_soundbank_panics :
    c10bank.length = 25600 + 42 * 4 ∧
    read_soundbank Player.default c10bank = BankResult.panicked := by
  constructor
  · rw [c10bank_len]
  · unfold read_soundbank
    rw [if_neg (by rw [c10bank_len]; omega), c10bank_drop]
    rfl

end Organya
